import Mathlib

/-!
Verification of the string-analysis service in `src/server.js`: the
analyzer `analyzeString`, the natural-language query parser
`parseNaturalLanguageQuery` with its conflict check
`hasConflictingFilters`, the filter chains of the two query endpoints, and
the mutating handlers (insert / delete).

JavaScript strings are modelled as lists of Unicode code points
(`JSStr`).  Where the source depends on UTF-16 representation details
(`value.length`) this is made explicit (`utf16Len`).  Regular-expression
matching against the fixed phrase grammar is embedded as explicit
left-to-right scanners (`scanNum`, `scanLetter`), and `String.prototype.includes`
as substring (infix) containment.
-/

/-- A JavaScript string, modelled as its list of Unicode code points. -/
abbrev JSStr := List Char

/-- The JavaScript whitespace class: the set matched by `\s` and stripped by
`String.prototype.trim` (ASCII whitespace, NBSP, Ogham space mark, the Unicode
space separators, line/paragraph separators, narrow/medium spaces, ideographic
space, and the BOM). -/
def jsIsWs (c : Char) : Bool :=
  c == ' ' || c == '\t' || c == '\n' || c == '\x0b' || c == '\x0c' || c == '\r' ||
  c == ' ' || c == ' ' || (0x2000 ≤ c.toNat && c.toNat ≤ 0x200a) ||
  c == ' ' || c == ' ' || c == ' ' || c == ' ' || c == '　' ||
  c == '﻿'

/-- Model of `String.prototype.trim`: strip leading and trailing whitespace. -/
def jsTrim (s : JSStr) : JSStr :=
  ((s.dropWhile jsIsWs).reverse.dropWhile jsIsWs).reverse

/-- Model of `String.prototype.toLowerCase`.  Only the ASCII case mapping is relevant
here: every phrase of the fixed grammar, and every character class its
regexes can match, is ASCII. -/
def jsToLower (s : JSStr) : JSStr := s.map Char.toLower

/-- Model of `String.prototype.includes`: substring containment. -/
def jsIncludes (s pat : JSStr) : Bool := decide (pat <:+: s)

/-- Model of `String.prototype.length`: the number of UTF-16 code units.  A code
point at or above U+10000 is stored as a surrogate pair and counts twice. -/
def utf16Len (s : JSStr) : Nat :=
  (s.map fun c => if 0x10000 ≤ c.toNat then 2 else 1).sum

/-- Numeric value of a string of decimal digits, as captured by a `(\d+)`
regex group and read back by `parseInt`. -/
def digitsToNat (ds : JSStr) : Nat :=
  ds.foldl (fun acc d => 10 * acc + (d.toNat - 48)) 0

/-- One attempted match of the regex `pre(\d+)post` at the start of `l`:
the literal `pre`, then a maximal non-empty digit run (`\d+` is greedy, and
`post` starts with a non-digit, so only the maximal run can match), then
the literal `post`. -/
def tryNumAt (pre post l : JSStr) : Option Nat :=
  if pre.isPrefixOf l then
    let r := l.drop pre.length
    let ds := r.takeWhile Char.isDigit
    if ds ≠ [] ∧ post.isPrefixOf (r.drop ds.length) then some (digitsToNat ds) else none
  else none

/-- Model of `lowerQuery.match(/pre(\d+)post/)`: the number captured at the first
position where the pattern matches, scanning left to right. -/
def scanNum (pre post : JSStr) : JSStr → Option Nat
  | [] => none
  | c :: rest =>
    match tryNumAt pre post (c :: rest) with
    | some n => some n
    | none => scanNum pre post rest

/-- One attempted match of the regex `pre([a-z])` at the start of `l`. -/
def tryLetterAt (pre l : JSStr) : Option Char :=
  if pre.isPrefixOf l then
    match l.drop pre.length with
    | c :: _ => if 'a' ≤ c ∧ c ≤ 'z' then some c else none
    | [] => none
  else none

/-- Model of `lowerQuery.match(/pre([a-z])/)`: the letter captured at the first
position where the pattern matches. -/
def scanLetter (pre : JSStr) : JSStr → Option Char
  | [] => none
  | c :: rest =>
    match tryLetterAt pre (c :: rest) with
    | some ch => some ch
    | none => scanLetter pre rest

/-- Value of a hexadecimal digit. -/
def hexVal (c : Char) : Nat :=
  if c.isDigit then c.toNat - 48
  else if 'a' ≤ c ∧ c ≤ 'f' then c.toNat - 87
  else c.toNat - 55

/-- Is `c` a hexadecimal digit? -/
def isHexDigitChar (c : Char) : Bool :=
  c.isDigit || ('a' ≤ c && c ≤ 'f') || ('A' ≤ c && c ≤ 'F')

/-- The digit-reading part of `parseInt` after whitespace and sign: either a
`0x`/`0X`-prefixed hexadecimal numeral or a leading decimal digit run;
`none` models `NaN`. -/
def jsParseIntDigits (r : JSStr) : Option Nat :=
  match r with
  | '0' :: x :: rest =>
    if x == 'x' || x == 'X' then
      let hs := rest.takeWhile isHexDigitChar
      if hs = [] then none else some (hs.foldl (fun acc d => 16 * acc + hexVal d) 0)
    else some (digitsToNat (('0' :: x :: rest).takeWhile Char.isDigit))
  | _ =>
    let ds := r.takeWhile Char.isDigit
    if ds = [] then none else some (digitsToNat ds)

/-- Model of `parseInt` with no radix argument: skip leading whitespace, read an
optional sign, then digits; `none` models `NaN`. -/
def jsParseInt (s : JSStr) : Option Int :=
  match s.dropWhile jsIsWs with
  | '-' :: r => (jsParseIntDigits r).map (fun n => -(n : Int))
  | '+' :: r => (jsParseIntDigits r).map (fun n => (n : Int))
  | r => (jsParseIntDigits r).map (fun n => (n : Int))

/-- The derived properties computed by `analyzeString` (src/server.js
lines 24–67).  `sha256_hash` is omitted (a fingerprint no claim concerns),
as are the record's `id` and `created_at`, which come from the impure
collaborators `Math.random()` and `Date`. -/
structure StringProperties where
  length : Nat
  is_palindrome : Bool
  unique_characters : Nat
  word_count : Nat
  character_frequency_map : List (Char × Nat)
  deriving Repr, DecidableEq

/-- A stored record: the original string together with its derived
properties. -/
structure AnalyzedRecord where
  value : JSStr
  properties : StringProperties
  deriving Repr, DecidableEq

/-- One step of the frequency-map loop `map[char] = (map[char] || 0) + 1`,
on an insertion-ordered association list (a JS object keyed by
characters). -/
def bumpChar : List (Char × Nat) → Char → List (Char × Nat)
  | [], c => [(c, 1)]
  | (k, n) :: rest, c => if k == c then (k, n + 1) :: rest else (k, n) :: bumpChar rest c

/-- The `character_frequency_map` loop of `analyzeString`. -/
def charFrequencyMap (s : JSStr) : List (Char × Nat) := s.foldl bumpChar []

/-- Model of `value.trim().split(/\s+/).filter(w => w.length > 0).length`: the
number of maximal non-whitespace runs.  `splitOnP` splits at every single
whitespace character, so a run of consecutive whitespace contributes empty
pieces, which the filter removes — the same pieces `/\s+/` leaves. -/
def wordCount (s : JSStr) : Nat :=
  (((jsTrim s).splitOnP jsIsWs).filter (fun w => 0 < w.length)).length

/-- Embedding of `analyzeString` (src/server.js lines 24–67).  The palindrome cleaning
`value.replace(/[^a-zA-Z0-9]/g, "").toLowerCase()` keeps only ASCII
alphanumerics: a non-ASCII code point is never in `[a-zA-Z0-9]` (nor is
either half of a surrogate pair), so at the code-point level the replace
is a filter by `Char.isAlphanum`, and the subsequent `toLowerCase` on the
all-ASCII remainder is the ASCII case map. -/
def analyzeString (value : JSStr) : AnalyzedRecord :=
  let length := utf16Len value
  let unique_characters := value.eraseDups.length
  let word_count := wordCount value
  let character_frequency_map := charFrequencyMap value
  let cleaned := jsToLower (value.filter Char.isAlphanum)
  let is_palindrome := cleaned == cleaned.reverse
  { value,
    properties := { length, is_palindrome, unique_characters, word_count,
                    character_frequency_map } }

/-- Embedding of `isCharPresent` (src/server.js lines 76–78): `str.includes(char)`. -/
def isCharPresent (str ch : JSStr) : Bool := jsIncludes str ch

/-- Embedding of `checkIfStringExists` (src/server.js lines 87–89). -/
def checkIfStringExists (value : JSStr) (data : List AnalyzedRecord) : Bool :=
  data.any (fun item => item.value == value)

/-- A parsed filter object: the sparse set of optional predicates built by
`parseNaturalLanguageQuery` or by the structured-query handler.  Numeric
fields are `Int` (JS numbers; `parseInt` may return negative values, and
`shorter than 0 characters` yields `max_length = -1`). -/
structure Criteria where
  word_count : Option Int := none
  is_palindrome : Option Bool := none
  min_length : Option Int := none
  max_length : Option Int := none
  contains_character : Option JSStr := none
  deriving Repr, DecidableEq

/-- Embedding of `parseNaturalLanguageQuery` (src/server.js lines 97–135): the six
phrase rules applied in source order to the lower-cased query, each
assigning its field on a match — so a later rule overwrites an earlier one
on the same field (`contain the first vowel` runs after
`containing the letter ([a-z])`). -/
def parseNaturalLanguageQuery (query : JSStr) : Criteria :=
  let lowerQuery := jsToLower query
  let f0 : Criteria := {}
  let f1 := if jsIncludes lowerQuery ("single word".data) then
    { f0 with word_count := some 1 } else f0
  let f2 := if jsIncludes lowerQuery ("palindromic".data) then
    { f1 with is_palindrome := some true } else f1
  let f3 := match scanNum ("longer than ".data) (" characters".data) lowerQuery with
    | some n => { f2 with min_length := some ((n : Int) + 1) }
    | none => f2
  let f4 := match scanLetter ("containing the letter ".data) lowerQuery with
    | some c => { f3 with contains_character := some [c] }
    | none => f3
  let f5 := if jsIncludes lowerQuery ("contain the first vowel".data) then
    { f4 with contains_character := some ['a'] } else f4
  let f6 := match scanNum ("shorter than ".data) (" characters".data) lowerQuery with
    | some n => { f5 with max_length := some ((n : Int) - 1) }
    | none => f5
  f6

/-- Embedding of `hasConflictingFilters` (src/server.js lines 143–153). -/
def hasConflictingFilters (filters : Criteria) : Bool :=
  match filters.min_length, filters.max_length with
  | some mn, some mx => decide (mn > mx)
  | _, _ => false

/-- The check `Object.keys(parsedFilters).length === 0` (src/server.js line 403): a
filter object with no field set. -/
def isEmptyCriteria (f : Criteria) : Bool :=
  f.word_count.isNone && f.is_palindrome.isNone && f.min_length.isNone &&
  f.max_length.isNone && f.contains_character.isNone

/-- The filter chain applied to the loaded records (src/server.js lines
431–457; the structured path at lines 302–332 applies the same chain once
its parameters are parsed): each present criterion filters the survivors
of the previous one, in source order. -/
def applyFilters (data : List AnalyzedRecord) (f : Criteria) : List AnalyzedRecord :=
  let d1 := match f.is_palindrome with
    | some b => data.filter (fun item => item.properties.is_palindrome == b)
    | none => data
  let d2 := match f.min_length with
    | some mn => d1.filter (fun item => decide (mn ≤ (item.properties.length : Int)))
    | none => d1
  let d3 := match f.max_length with
    | some mx => d2.filter (fun item => decide ((item.properties.length : Int) ≤ mx))
    | none => d2
  let d4 := match f.word_count with
    | some wc => d3.filter (fun item => ((item.properties.word_count : Int) == wc))
    | none => d3
  let d5 := match f.contains_character with
    | some s => d4.filter (fun item => isCharPresent item.value s)
    | none => d4
  d5

/-- The same five predicates applied in the opposite order, to state that
the order of application does not change the result. -/
def applyFiltersRev (data : List AnalyzedRecord) (f : Criteria) : List AnalyzedRecord :=
  let d1 := match f.contains_character with
    | some s => data.filter (fun item => isCharPresent item.value s)
    | none => data
  let d2 := match f.word_count with
    | some wc => d1.filter (fun item => ((item.properties.word_count : Int) == wc))
    | none => d1
  let d3 := match f.max_length with
    | some mx => d2.filter (fun item => decide ((item.properties.length : Int) ≤ mx))
    | none => d2
  let d4 := match f.min_length with
    | some mn => d3.filter (fun item => decide (mn ≤ (item.properties.length : Int)))
    | none => d3
  let d5 := match f.is_palindrome with
    | some b => d4.filter (fun item => item.properties.is_palindrome == b)
    | none => d4
  d5

/-- The `is_palindrome` predicate of the criteria, `true` when absent. -/
def testPalindrome (f : Criteria) (item : AnalyzedRecord) : Bool :=
  match f.is_palindrome with
  | some b => item.properties.is_palindrome == b
  | none => true

/-- The `min_length` predicate of the criteria, `true` when absent. -/
def testMinLength (f : Criteria) (item : AnalyzedRecord) : Bool :=
  match f.min_length with
  | some mn => decide (mn ≤ (item.properties.length : Int))
  | none => true

/-- The `max_length` predicate of the criteria, `true` when absent. -/
def testMaxLength (f : Criteria) (item : AnalyzedRecord) : Bool :=
  match f.max_length with
  | some mx => decide ((item.properties.length : Int) ≤ mx)
  | none => true

/-- The `word_count` predicate of the criteria, `true` when absent. -/
def testWordCount (f : Criteria) (item : AnalyzedRecord) : Bool :=
  match f.word_count with
  | some wc => ((item.properties.word_count : Int) == wc)
  | none => true

/-- The `contains_character` predicate of the criteria, `true` when
absent. -/
def testContains (f : Criteria) (item : AnalyzedRecord) : Bool :=
  match f.contains_character with
  | some s => isCharPresent item.value s
  | none => true

/-- A record satisfies every present predicate of the criteria (absent
fields impose no constraint): the conjunction the filter chain is claimed
to compute. -/
def matchesCriteria (f : Criteria) (item : AnalyzedRecord) : Bool :=
  testPalindrome f item && testMinLength f item && testMaxLength f item &&
  testWordCount f item && testContains f item

/-- The error kinds the handlers signal (spec §7); the transport mapping to
HTTP statuses is outside the embedded core. -/
inductive ErrKind where
  | InvalidInput
  | DuplicateValue
  | NotFound
  | UnparseableQuery
  | ConflictingCriteria
  deriving Repr, DecidableEq

/-- The raw query parameters of `GET /strings` (src/server.js lines
267–291): each recognized name optionally bound to its raw string value,
plus any unrecognized parameters. -/
structure RawQuery where
  is_palindrome : Option JSStr := none
  min_length : Option JSStr := none
  max_length : Option JSStr := none
  word_count : Option JSStr := none
  contains_character : Option JSStr := none
  unrecognized : List (JSStr × JSStr) := []
  deriving Repr, DecidableEq

/-- Embedding of `checkKeys(req.query, val)` (src/server.js lines 249–250): is at least
one recognized parameter name present? -/
def hasRecognizedKey (q : RawQuery) : Bool :=
  q.is_palindrome.isSome || q.min_length.isSome || q.max_length.isSome ||
  q.word_count.isSome || q.contains_character.isSome

/-- The count `Object.keys(req.query).length` for the modelled query. -/
def totalParams (q : RawQuery) : Nat :=
  (if q.is_palindrome.isSome then 1 else 0) + (if q.min_length.isSome then 1 else 0) +
  (if q.max_length.isSome then 1 else 0) + (if q.word_count.isSome then 1 else 0) +
  (if q.contains_character.isSome then 1 else 0) + q.unrecognized.length

/-- The filter chain of `GET /strings` (src/server.js lines 302–332): a
present `is_palindrome` compares against the literal string `true`; a
present numeric parameter is `parseInt`-ed and its filter is skipped when
the result is `NaN`; a present `contains_character` filters by substring
containment of the raw parameter. -/
def getStringsFilter (q : RawQuery) (data : List AnalyzedRecord) : List AnalyzedRecord :=
  let d1 := match q.is_palindrome with
    | some s => data.filter (fun item => item.properties.is_palindrome == (s == ("true".data)))
    | none => data
  let d2 := match q.min_length with
    | some s =>
      match jsParseInt s with
      | some mn => d1.filter (fun item => decide (mn ≤ (item.properties.length : Int)))
      | none => d1
    | none => d1
  let d3 := match q.max_length with
    | some s =>
      match jsParseInt s with
      | some mx => d2.filter (fun item => decide ((item.properties.length : Int) ≤ mx))
      | none => d2
    | none => d2
  let d4 := match q.word_count with
    | some s =>
      match jsParseInt s with
      | some wc => d3.filter (fun item => ((item.properties.word_count : Int) == wc))
      | none => d3
    | none => d3
  let d5 := match q.contains_character with
    | some s => d4.filter (fun item => isCharPresent item.value s)
    | none => d4
  d5

/-- The `GET /strings` handler (src/server.js lines 267–349): reject with
`InvalidInput` (400 "wrong query string") only when parameters are present
and none has a recognized name; otherwise apply the filter chain to the
loaded records. -/
def getStrings (q : RawQuery) (data : List AnalyzedRecord) :
    Except ErrKind (List AnalyzedRecord) :=
  if 0 < totalParams q ∧ hasRecognizedKey q = false then .error .InvalidInput
  else .ok (getStringsFilter q data)

/-- The `GET /strings/filter-by-natural-language` handler (src/server.js
lines 389–470).  An empty / whitespace-only query and a query whose parse
sets no field both produce the same 400 "Unable to parse natural language
query" response, modelled as `UnparseableQuery`; a parse with conflicting
filters produces 422, modelled as `ConflictingCriteria`. -/
def nlHandler (query : JSStr) (data : List AnalyzedRecord) :
    Except ErrKind (List AnalyzedRecord) :=
  if jsTrim query = [] then .error .UnparseableQuery
  else
    let parsedFilters := parseNaturalLanguageQuery query
    if isEmptyCriteria parsedFilters then .error .UnparseableQuery
    else if hasConflictingFilters parsedFilters then .error .ConflictingCriteria
    else .ok (applyFilters data parsedFilters)

/-- The `POST /strings` handler (src/server.js lines 198–240), as a
function from the submitted value and the loaded collection to the
response and the collection that is persisted: validation failure and a
duplicate value return early, before the write, leaving the stored
collection unchanged. -/
def postStrings (value : JSStr) (data : List AnalyzedRecord) :
    Except ErrKind AnalyzedRecord × List AnalyzedRecord :=
  if jsTrim value = [] then (.error .InvalidInput, data)
  else if checkIfStringExists value data then (.error .DuplicateValue, data)
  else
    let stringCheck := analyzeString value
    (.ok stringCheck, data ++ [stringCheck])

/-- The `DELETE /strings/:string_value` handler (src/server.js lines
480–512): find the first record with the given value; if none exists
return 404 (`NotFound`) before the write, else splice it out and persist. -/
def deleteString (string_value : JSStr) (data : List AnalyzedRecord) :
    Except ErrKind Unit × List AnalyzedRecord :=
  match data.findIdx? (fun item => item.value == string_value) with
  | none => (.error .NotFound, data)
  | some i => (.ok (), data.eraseIdx i)

/-- The cleaned copy the palindrome check of the spec describes, at the
ASCII reading of "alphanumeric" the code implements: remove every
character outside `[a-zA-Z0-9]`, then lower-case. -/
def cleanedAscii (v : JSStr) : JSStr := jsToLower (v.filter Char.isAlphanum)

/-- Modelled from the spec: "build a cleaned copy retaining only
alphanumeric characters (any script), lower-cased" — alphanumeric over any
script, which the source does not implement (its regex class is
`[a-zA-Z0-9]`).  The any-script classification is modelled on the fragment
needed here: ASCII alphanumerics together with the Latin-1 Supplement
letters U+00C0–U+00FF except the two operators × (U+00D7) and ÷ (U+00F7). -/
def isAlnumAnyScript (c : Char) : Bool :=
  c.isAlphanum ||
  (0xc0 ≤ c.toNat && c.toNat ≤ 0xff && c.toNat ≠ 0xd7 && c.toNat ≠ 0xf7)

/-- Modelled from the spec: lower-casing over any script, on the same
fragment — A–Z and the Latin-1 capitals À–Þ (except ×) map down by 0x20. -/
def lowerAnyScript (c : Char) : Char :=
  if 0xc0 ≤ c.toNat ∧ c.toNat ≤ 0xde ∧ c.toNat ≠ 0xd7 then Char.ofNat (c.toNat + 0x20)
  else c.toLower

/-- Modelled from the spec: the cleaned copy with any-script alphanumerics
(on the modelled fragment), lower-cased. -/
def cleanedAnyScript (v : JSStr) : JSStr :=
  (v.filter isAlnumAnyScript).map lowerAnyScript

/-! ### Bridging lemmas: the embedded matchers versus substring occurrences -/

theorem jsIncludes_iff (s pat : JSStr) : jsIncludes s pat = true ↔ pat <:+: s := by
  simp [jsIncludes]

theorem takeWhile_all_append {p : Char → Bool} {l₁ l₂ : JSStr} {b : Char}
    (h₁ : ∀ a ∈ l₁, p a = true) (hb : p b = false) :
    (l₁ ++ b :: l₂).takeWhile p = l₁ := by
  induction l₁ with
  | nil => simp [List.takeWhile_cons, hb]
  | cons a t ih =>
    have ha : p a = true := h₁ a (List.mem_cons_self a t)
    simp only [List.cons_append, List.takeWhile_cons, ha, if_true]
    rw [ih (fun x hx => h₁ x (List.mem_cons_of_mem a hx))]

theorem drop_length_takeWhile (p : Char → Bool) (l : JSStr) :
    l.drop (l.takeWhile p).length = l.dropWhile p := by
  induction l with
  | nil => rfl
  | cons a t ih =>
    cases hpa : p a <;>
      simp [List.takeWhile_cons, List.dropWhile_cons, hpa, ih]

theorem tryNumAt_sound {pre post l : JSStr} {n : Nat}
    (h : tryNumAt pre post l = some n) :
    ∃ ds : JSStr, ds ≠ [] ∧ (∀ d ∈ ds, d.isDigit = true) ∧ n = digitsToNat ds ∧
      (pre ++ ds ++ post) <+: l := by
  unfold tryNumAt at h
  dsimp only at h
  split at h
  case isFalse => exact absurd h (by simp)
  case isTrue hpre =>
    split at h
    case isFalse => exact absurd h (by simp)
    case isTrue hc =>
      obtain ⟨hds, hpost⟩ := hc
      injection h with h
      refine ⟨(l.drop pre.length).takeWhile Char.isDigit, hds,
        fun d hd => List.mem_takeWhile_imp hd, h.symm, ?_⟩
      have hpre2 : pre ++ l.drop pre.length = l :=
        List.prefix_iff_eq_append.mp (List.isPrefixOf_iff_prefix.mp hpre)
      obtain ⟨t, ht⟩ := List.isPrefixOf_iff_prefix.mp hpost
      refine ⟨t, ?_⟩
      calc (pre ++ (l.drop pre.length).takeWhile Char.isDigit ++ post) ++ t
          = pre ++ ((l.drop pre.length).takeWhile Char.isDigit ++ (post ++ t)) := by
            simp [List.append_assoc]
        _ = pre ++ ((l.drop pre.length).takeWhile Char.isDigit ++
              ((l.drop pre.length).drop ((l.drop pre.length).takeWhile Char.isDigit).length)) := by
            rw [ht]
        _ = pre ++ l.drop pre.length := by
            rw [drop_length_takeWhile, List.takeWhile_append_dropWhile]
        _ = l := hpre2

theorem tryNumAt_complete {pre ds pt l : JSStr} {p0 : Char}
    (hds : ds ≠ []) (hdig : ∀ d ∈ ds, d.isDigit = true) (hp0 : p0.isDigit = false)
    (h : (pre ++ ds ++ (p0 :: pt)) <+: l) :
    ∃ m, tryNumAt pre (p0 :: pt) l = some m := by
  obtain ⟨t, ht⟩ := h
  have hpre : pre.isPrefixOf l = true := by
    rw [List.isPrefixOf_iff_prefix]
    exact ⟨ds ++ (p0 :: pt) ++ t, by rw [← ht]; simp [List.append_assoc]⟩
  have hdrop : l.drop pre.length = ds ++ (p0 :: (pt ++ t)) := by
    rw [← ht]
    have : (pre ++ ds ++ (p0 :: pt)) ++ t = pre ++ (ds ++ (p0 :: (pt ++ t))) := by
      simp [List.append_assoc]
    rw [this, List.drop_left]
  have htake : (l.drop pre.length).takeWhile Char.isDigit = ds := by
    rw [hdrop]; exact takeWhile_all_append hdig hp0
  have hpost : (p0 :: pt).isPrefixOf ((l.drop pre.length).drop
      ((l.drop pre.length).takeWhile Char.isDigit).length) = true := by
    rw [htake, hdrop, List.drop_left]
    rw [List.isPrefixOf_iff_prefix]
    exact ⟨t, by simp⟩
  refine ⟨digitsToNat ds, ?_⟩
  unfold tryNumAt
  rw [if_pos hpre, if_pos ⟨by rw [htake]; exact hds, hpost⟩, htake]

theorem scanNum_sound {pre post : JSStr} :
    ∀ {l : JSStr} {n : Nat}, scanNum pre post l = some n →
      ∃ ds : JSStr, ds ≠ [] ∧ (∀ d ∈ ds, d.isDigit = true) ∧ n = digitsToNat ds ∧
        (pre ++ ds ++ post) <:+: l := by
  intro l
  induction l with
  | nil => intro n h; simp [scanNum] at h
  | cons c rest ih =>
    intro n h
    rw [scanNum] at h
    cases htry : tryNumAt pre post (c :: rest) with
    | some m =>
      rw [htry] at h
      injection h with h
      obtain ⟨ds, h1, h2, h3, h4⟩ := tryNumAt_sound htry
      exact ⟨ds, h1, h2, h ▸ h3, h4.isInfix⟩
    | none =>
      rw [htry] at h
      obtain ⟨ds, h1, h2, h3, h4⟩ := ih h
      exact ⟨ds, h1, h2, h3, List.infix_cons h4⟩

theorem scanNum_complete {pre ds pt : JSStr} {p0 : Char}
    (hds : ds ≠ []) (hdig : ∀ d ∈ ds, d.isDigit = true) (hp0 : p0.isDigit = false) :
    ∀ {l : JSStr}, (pre ++ ds ++ (p0 :: pt)) <:+: l →
      ∃ n, scanNum pre (p0 :: pt) l = some n := by
  intro l
  induction l with
  | nil =>
    intro h
    rw [List.infix_nil] at h
    exact absurd (List.append_eq_nil.mp (List.append_eq_nil.mp h).1).2 hds
  | cons c rest ih =>
    intro h
    rw [List.infix_cons_iff] at h
    cases htry : tryNumAt pre (p0 :: pt) (c :: rest) with
    | some m => exact ⟨m, by rw [scanNum, htry]⟩
    | none =>
      cases h with
      | inl hpre =>
        obtain ⟨m, hm⟩ := tryNumAt_complete hds hdig hp0 hpre
        rw [htry] at hm
        exact absurd hm (by simp)
      | inr hinf =>
        obtain ⟨m, hm⟩ := ih hinf
        exact ⟨m, by rw [scanNum, htry, hm]⟩

theorem tryLetterAt_sound {pre l : JSStr} {c : Char}
    (h : tryLetterAt pre l = some c) :
    ('a' ≤ c ∧ c ≤ 'z') ∧ (pre ++ [c]) <+: l := by
  unfold tryLetterAt at h
  split at h
  case isFalse => exact absurd h (by simp)
  case isTrue hpre =>
    have hpre2 : pre ++ l.drop pre.length = l :=
      List.prefix_iff_eq_append.mp (List.isPrefixOf_iff_prefix.mp hpre)
    cases hd : l.drop pre.length with
    | nil => rw [hd] at h; exact absurd h (by simp)
    | cons ch r =>
      rw [hd] at h
      simp only at h
      split at h
      case isTrue hrange =>
        injection h with h
        subst h
        refine ⟨hrange, r, ?_⟩
        rw [← hpre2, hd]
        simp
      case isFalse => exact absurd h (by simp)

theorem scanLetter_sound {pre : JSStr} :
    ∀ {l : JSStr} {c : Char}, scanLetter pre l = some c →
      ('a' ≤ c ∧ c ≤ 'z') ∧ (pre ++ [c]) <:+: l := by
  intro l
  induction l with
  | nil => intro c h; simp [scanLetter] at h
  | cons a rest ih =>
    intro c h
    rw [scanLetter] at h
    cases htry : tryLetterAt pre (a :: rest) with
    | some ch =>
      rw [htry] at h
      injection h with h
      subst h
      obtain ⟨h1, h2⟩ := tryLetterAt_sound htry
      exact ⟨h1, h2.isInfix⟩
    | none =>
      rw [htry] at h
      obtain ⟨h1, h2⟩ := ih h
      exact ⟨h1, List.infix_cons h2⟩

/-! ### Whitespace and trim lemmas -/

theorem jsTrim_eq_nil {q : JSStr} (h : jsTrim q = []) : ∀ c ∈ q, jsIsWs c = true := by
  unfold jsTrim at h
  rw [List.reverse_eq_nil_iff] at h
  have h2 : ∀ c ∈ q.dropWhile jsIsWs, jsIsWs c = true := by
    intro c hc
    exact List.dropWhile_eq_nil_iff.mp h c (List.mem_reverse.mpr hc)
  intro c hc
  rw [← List.takeWhile_append_dropWhile (p := jsIsWs) (l := q)] at hc
  rcases List.mem_append.mp hc with h3 | h3
  · exact List.mem_takeWhile_imp h3
  · exact h2 c h3

theorem jsIsWs_toLower {c : Char} (h : jsIsWs c = true) : c.toLower = c := by
  have hval : c.toNat < 65 ∨ 90 < c.toNat := by
    simp only [jsIsWs, Bool.or_eq_true, beq_iff_eq, Bool.and_eq_true, decide_eq_true_eq] at h
    rcases h with ((((((((((((((h | h) | h) | h) | h) | h) | h) | h) | ⟨h, _⟩) | h) | h) | h) | h) | h) | h) <;>
      first
        | (subst h; decide)
        | (right; omega)
  simp only [Char.toLower]
  rw [if_neg (by omega)]

theorem jsTrim_ne_nil_of_nonWs_toLower {q : JSStr} {c : Char}
    (hc : c ∈ jsToLower q) (hnw : ∀ a : Char, jsIsWs a = true → Char.toLower a ≠ c) :
    jsTrim q ≠ [] := by
  intro htrim
  obtain ⟨a, ha, haeq⟩ := List.mem_map.mp hc
  exact hnw a (jsTrim_eq_nil htrim a ha) haeq

/-! ### Characterization of the parser's fields -/

theorem parse_eq (q : JSStr) :
    parseNaturalLanguageQuery q =
      { word_count := if jsIncludes (jsToLower q) ("single word".data) then some 1 else none,
        is_palindrome := if jsIncludes (jsToLower q) ("palindromic".data) then some true else none,
        min_length := (scanNum ("longer than ".data) (" characters".data) (jsToLower q)).map
          (fun n => (n : Int) + 1),
        max_length := (scanNum ("shorter than ".data) (" characters".data) (jsToLower q)).map
          (fun n => (n : Int) - 1),
        contains_character :=
          if jsIncludes (jsToLower q) ("contain the first vowel".data) then some ['a']
          else (scanLetter ("containing the letter ".data) (jsToLower q)).map
            (fun c => [c]) } := by
  simp only [parseNaturalLanguageQuery]
  cases h1 : jsIncludes (jsToLower q) ("single word".data) <;>
  cases h2 : jsIncludes (jsToLower q) ("palindromic".data) <;>
  cases h3 : scanNum ("longer than ".data) (" characters".data) (jsToLower q) <;>
  cases h4 : scanLetter ("containing the letter ".data) (jsToLower q) <;>
  cases h5 : jsIncludes (jsToLower q) ("contain the first vowel".data) <;>
  cases h6 : scanNum ("shorter than ".data) (" characters".data) (jsToLower q) <;>
  simp [h1, h2, h3, h4, h5, h6]

/-! ### The filter chain computes the conjunction of the present predicates -/

theorem palStep (f : Criteria) (d : List AnalyzedRecord) :
    (match f.is_palindrome with
      | some b => d.filter (fun item => item.properties.is_palindrome == b)
      | none => d) = d.filter (testPalindrome f) := by
  cases h : f.is_palindrome with
  | none => exact (List.filter_eq_self.mpr fun x _ => by simp [testPalindrome, h]).symm
  | some b => exact List.filter_congr fun x _ => by simp [testPalindrome, h]

theorem minStep (f : Criteria) (d : List AnalyzedRecord) :
    (match f.min_length with
      | some mn => d.filter (fun item => decide (mn ≤ (item.properties.length : Int)))
      | none => d) = d.filter (testMinLength f) := by
  cases h : f.min_length with
  | none => exact (List.filter_eq_self.mpr fun x _ => by simp [testMinLength, h]).symm
  | some mn => exact List.filter_congr fun x _ => by simp [testMinLength, h]

theorem maxStep (f : Criteria) (d : List AnalyzedRecord) :
    (match f.max_length with
      | some mx => d.filter (fun item => decide ((item.properties.length : Int) ≤ mx))
      | none => d) = d.filter (testMaxLength f) := by
  cases h : f.max_length with
  | none => exact (List.filter_eq_self.mpr fun x _ => by simp [testMaxLength, h]).symm
  | some mx => exact List.filter_congr fun x _ => by simp [testMaxLength, h]

theorem wcStep (f : Criteria) (d : List AnalyzedRecord) :
    (match f.word_count with
      | some wc => d.filter (fun item => ((item.properties.word_count : Int) == wc))
      | none => d) = d.filter (testWordCount f) := by
  cases h : f.word_count with
  | none => exact (List.filter_eq_self.mpr fun x _ => by simp [testWordCount, h]).symm
  | some wc => exact List.filter_congr fun x _ => by simp [testWordCount, h]

theorem containsStep (f : Criteria) (d : List AnalyzedRecord) :
    (match f.contains_character with
      | some s => d.filter (fun item => isCharPresent item.value s)
      | none => d) = d.filter (testContains f) := by
  cases h : f.contains_character with
  | none => exact (List.filter_eq_self.mpr fun x _ => by simp [testContains, h]).symm
  | some s => exact List.filter_congr fun x _ => by simp [testContains, h]

theorem bool_reorder_fwd : ∀ b1 b2 b3 b4 b5 : Bool,
    (b5 && (b4 && (b3 && (b2 && b1)))) = ((((b1 && b2) && b3) && b4) && b5) := by
  decide

theorem bool_reorder_rev : ∀ b1 b2 b3 b4 b5 : Bool,
    (b1 && (b2 && (b3 && (b4 && b5)))) = ((((b1 && b2) && b3) && b4) && b5) := by
  decide

theorem applyFilters_eq_filter (data : List AnalyzedRecord) (f : Criteria) :
    applyFilters data f = data.filter (matchesCriteria f) := by
  simp only [applyFilters]
  rw [palStep, minStep, maxStep, wcStep, containsStep]
  simp only [List.filter_filter]
  exact List.filter_congr fun a _ => bool_reorder_fwd _ _ _ _ _

theorem applyFiltersRev_eq_filter (data : List AnalyzedRecord) (f : Criteria) :
    applyFiltersRev data f = data.filter (matchesCriteria f) := by
  simp only [applyFiltersRev]
  rw [containsStep, wcStep, maxStep, minStep, palStep]
  simp only [List.filter_filter]
  exact List.filter_congr fun a _ => bool_reorder_rev _ _ _ _ _

/-! ### Claims -/

/-- C1, counterexample.  The claim reads "alphanumeric covers any script",
but the code's regex class is `[a-zA-Z0-9]`: for the non-empty input
`"éz"` the code's cleaned copy is `"z"` (é is removed), so
`is_palindrome` is `true`, while the spec's any-script cleaned copy `"éz"`
differs from its reversal `"zé"` — the claimed equivalence fails. -/
theorem c1_palindrome_counterexample :
    ([Char.ofNat 0xe9, 'z'] : JSStr) ≠ [] ∧
    (analyzeString [Char.ofNat 0xe9, 'z']).properties.is_palindrome = true ∧
    cleanedAnyScript [Char.ofNat 0xe9, 'z'] ≠
      (cleanedAnyScript [Char.ofNat 0xe9, 'z']).reverse := by
  decide

/-- C1, amended: for every non-empty input, `is_palindrome` is true iff the
cleaned copy of the input — keeping only ASCII alphanumerics
(`[a-zA-Z0-9]`), lower-cased — equals its own reversal; an input whose
cleaned copy is empty is a palindrome, `"A man, a plan, a canal: Panama"`
yields true, and `"hello"` yields false. -/
theorem c1_palindrome_ascii (v : JSStr) (hv : v ≠ []) :
    ((analyzeString v).properties.is_palindrome = true ↔
      cleanedAscii v = (cleanedAscii v).reverse) ∧
    (cleanedAscii v = [] → (analyzeString v).properties.is_palindrome = true) ∧
    (analyzeString ("A man, a plan, a canal: Panama".data)).properties.is_palindrome = true ∧
    (analyzeString ("hello".data)).properties.is_palindrome = false ∧
    (analyzeString ("!!!".data)).properties.is_palindrome = true := by
  refine ⟨?_, ?_, by decide, by decide, by decide⟩
  · show (cleanedAscii v == (cleanedAscii v).reverse) = true ↔ _
    exact beq_iff_eq
  · intro h
    show (cleanedAscii v == (cleanedAscii v).reverse) = true
    rw [h]
    rfl

/-- C1 witness: the amended equivalence evaluated at the non-empty input
`"A man, a plan, a canal: Panama"`. -/
theorem c1_palindrome_ascii_witness :
    ((analyzeString ("A man, a plan, a canal: Panama".data)).properties.is_palindrome = true ↔
      cleanedAscii ("A man, a plan, a canal: Panama".data) =
        (cleanedAscii ("A man, a plan, a canal: Panama".data)).reverse) ∧
    (cleanedAscii ("A man, a plan, a canal: Panama".data) = [] →
      (analyzeString ("A man, a plan, a canal: Panama".data)).properties.is_palindrome = true) ∧
    (analyzeString ("A man, a plan, a canal: Panama".data)).properties.is_palindrome = true ∧
    (analyzeString ("hello".data)).properties.is_palindrome = false ∧
    (analyzeString ("!!!".data)).properties.is_palindrome = true :=
  c1_palindrome_ascii ("A man, a plan, a canal: Panama".data) (by decide)

/-- C2, counterexample.  `value.length` counts UTF-16 code units, not code
points: for the non-empty one-code-point input U+1F600 the stored length
is 2 while the code-point count is 1. -/
theorem c2_length_counterexample :
    ([Char.ofNat 0x1f600] : JSStr) ≠ [] ∧
    (analyzeString [Char.ofNat 0x1f600]).properties.length = 2 ∧
    ([Char.ofNat 0x1f600] : JSStr).length = 1 := by
  decide

/-- C2, amended: for every non-empty input, `length` is the UTF-16
code-unit count of the input, which coincides with the number of Unicode
code points exactly when every code point is below U+10000 (so the claim
holds for all BMP input, ASCII or not, but not for astral code points). -/
theorem c2_length_utf16 (v : JSStr) (hv : v ≠ []) :
    (analyzeString v).properties.length = utf16Len v ∧
    ((∀ c ∈ v, c.toNat < 0x10000) → (analyzeString v).properties.length = v.length) := by
  refine ⟨rfl, fun hbmp => ?_⟩
  show utf16Len v = v.length
  induction v with
  | nil => rfl
  | cons c t ih =>
    have hc : c.toNat < 0x10000 := hbmp c (List.mem_cons_self c t)
    have ht : ∀ x ∈ t, x.toNat < 0x10000 := fun x hx => hbmp x (List.mem_cons_of_mem c hx)
    by_cases hne : t = []
    · subst hne
      simp [utf16Len, Nat.not_le.mpr hc]
    · have := (ih hne ht : utf16Len t = t.length)
      simp [utf16Len, Nat.not_le.mpr hc] at this ⊢
      omega

/-- C2 witness: the amended statement evaluated at the non-empty BMP input
`"héllo"`. -/
theorem c2_length_utf16_witness :
    (analyzeString ("héllo".data)).properties.length = utf16Len ("héllo".data) ∧
    ((∀ c ∈ ("héllo".data), c.toNat < 0x10000) →
      (analyzeString ("héllo".data)).properties.length = ("héllo".data).length) :=
  c2_length_utf16 ("héllo".data) (by decide)

/-- C3: for every record list and non-conflicting criteria, the filter
chain returns exactly the records satisfying all present predicates
(logical AND, absent fields unconstrained) as a stable sub-filter of the
input (original relative order preserved); with no criteria set it is the
identity; and applying the five predicates in the opposite order gives the
same result. -/
theorem c3_filter_engine (rs : List AnalyzedRecord) (c : Criteria)
    (hc : hasConflictingFilters c = false) :
    applyFilters rs c = rs.filter (matchesCriteria c) ∧
    List.Sublist (applyFilters rs c) rs ∧
    applyFilters rs ({} : Criteria) = rs ∧
    applyFiltersRev rs c = applyFilters rs c := by
  refine ⟨applyFilters_eq_filter rs c, ?_, rfl, ?_⟩
  · rw [applyFilters_eq_filter]
    exact List.filter_sublist rs
  · rw [applyFilters_eq_filter, applyFiltersRev_eq_filter]

/-- C3 witness: the spec's own example — records of lengths 3, 5, 7, 9
filtered by `{min_length: 5, max_length: 7}` (non-conflicting) — keeps
exactly the length-5 and length-7 records, in order. -/
theorem c3_filter_engine_witness :
    (applyFilters
        [analyzeString (List.replicate 3 'a'), analyzeString (List.replicate 5 'a'),
         analyzeString (List.replicate 7 'a'), analyzeString (List.replicate 9 'a')]
        { min_length := some 5, max_length := some 7 } =
      [analyzeString (List.replicate 3 'a'), analyzeString (List.replicate 5 'a'),
       analyzeString (List.replicate 7 'a'),
       analyzeString (List.replicate 9 'a')].filter
        (matchesCriteria { min_length := some 5, max_length := some 7 })) ∧
    (applyFilters
        [analyzeString (List.replicate 3 'a'), analyzeString (List.replicate 5 'a'),
         analyzeString (List.replicate 7 'a'), analyzeString (List.replicate 9 'a')]
        { min_length := some 5, max_length := some 7 } =
      [analyzeString (List.replicate 5 'a'), analyzeString (List.replicate 7 'a')]) :=
  ⟨(c3_filter_engine _ { min_length := some 5, max_length := some 7 } (by decide)).1,
   by decide⟩

/-- C4: `hasConflictingFilters` returns true exactly when `min_length` and
`max_length` are both present with `min_length > max_length`; it returns
true on `{min_length: 10, max_length: 5}`; and whenever the parsed filters
of a natural-language query conflict, the handler answers
`ConflictingCriteria` (HTTP 422) without applying them. -/
theorem c4_conflict_detection :
    (∀ c : Criteria, hasConflictingFilters c = true ↔
      ∃ mn mx : Int, c.min_length = some mn ∧ c.max_length = some mx ∧ mx < mn) ∧
    hasConflictingFilters { min_length := some 10, max_length := some 5 } = true ∧
    (∀ (q : JSStr) (data : List AnalyzedRecord),
      hasConflictingFilters (parseNaturalLanguageQuery q) = true →
      nlHandler q data = .error .ConflictingCriteria) := by
  refine ⟨?_, by decide, ?_⟩
  · intro c
    constructor
    · intro h
      unfold hasConflictingFilters at h
      cases hmn : c.min_length with
      | none => rw [hmn] at h; exact absurd h (by simp)
      | some mn =>
        cases hmx : c.max_length with
        | none => rw [hmn, hmx] at h; exact absurd h (by simp)
        | some mx =>
          rw [hmn, hmx] at h
          simp only [decide_eq_true_eq] at h
          exact ⟨mn, mx, rfl, rfl, h⟩
    · rintro ⟨mn, mx, hmn, hmx, hlt⟩
      unfold hasConflictingFilters
      rw [hmn, hmx]
      simpa using hlt
  · intro q data hconf
    have hmin : ∃ n, scanNum ("longer than ".data) (" characters".data) (jsToLower q) =
        some n := by
      by_contra hnone
      push_neg at hnone
      have : (parseNaturalLanguageQuery q).min_length = none := by
        rw [parse_eq]
        cases hs : scanNum ("longer than ".data) (" characters".data) (jsToLower q) with
        | none => rfl
        | some n => exact absurd hs (by intro h; exact (hnone n) h)
      unfold hasConflictingFilters at hconf
      rw [this] at hconf
      exact absurd hconf (by simp)
    obtain ⟨n, hn⟩ := hmin
    obtain ⟨ds, hds, hdig, hval, hinf⟩ := scanNum_sound hn
    have hl : 'l' ∈ jsToLower q := by
      refine hinf.subset ?_
      simp
    have htrim : jsTrim q ≠ [] := by
      refine jsTrim_ne_nil_of_nonWs_toLower hl ?_
      intro a ha heq
      rw [jsIsWs_toLower ha] at heq
      subst heq
      exact absurd ha (by decide)
    have hmin2 : (parseNaturalLanguageQuery q).min_length = some ((n : Int) + 1) := by
      rw [parse_eq, hn]
      rfl
    have hne : isEmptyCriteria (parseNaturalLanguageQuery q) = false := by
      unfold isEmptyCriteria
      rw [hmin2]
      simp
    unfold nlHandler
    rw [if_neg htrim]
    simp only [hne, Bool.false_eq_true, if_false, hconf, if_true]

/-- C4 witness: the conflicting query "strings longer than 10 characters
but shorter than 6 characters" (parsed to `min_length = 11`,
`max_length = 5`) is rejected with `ConflictingCriteria`. -/
theorem c4_conflict_detection_witness :
    hasConflictingFilters
      (parseNaturalLanguageQuery
        ("strings longer than 10 characters but shorter than 6 characters".data)) = true ∧
    nlHandler ("strings longer than 10 characters but shorter than 6 characters".data) [] =
      .error .ConflictingCriteria :=
  ⟨by decide,
   c4_conflict_detection.2.2
     ("strings longer than 10 characters but shorter than 6 characters".data) [] (by decide)⟩

/-- C5: whenever the lower-cased query contains the phrase
"longer than N characters" for a decimal numeral N, the parser sets
`min_length` to (the first such) N + 1, and likewise "shorter than N
characters" sets `max_length = N - 1`; in particular
"strings longer than 5 characters" parses to exactly `{min_length: 6}`. -/
theorem c5_length_phrases :
    (∀ (q ds : JSStr), ds ≠ [] → (∀ d ∈ ds, d.isDigit = true) →
      ("longer than ".data ++ ds ++ " characters".data) <:+: jsToLower q →
      ∃ ds2 : JSStr, ds2 ≠ [] ∧ (∀ d ∈ ds2, d.isDigit = true) ∧
        ("longer than ".data ++ ds2 ++ " characters".data) <:+: jsToLower q ∧
        (parseNaturalLanguageQuery q).min_length = some ((digitsToNat ds2 : Int) + 1)) ∧
    (∀ (q ds : JSStr), ds ≠ [] → (∀ d ∈ ds, d.isDigit = true) →
      ("shorter than ".data ++ ds ++ " characters".data) <:+: jsToLower q →
      ∃ ds2 : JSStr, ds2 ≠ [] ∧ (∀ d ∈ ds2, d.isDigit = true) ∧
        ("shorter than ".data ++ ds2 ++ " characters".data) <:+: jsToLower q ∧
        (parseNaturalLanguageQuery q).max_length = some ((digitsToNat ds2 : Int) - 1)) ∧
    parseNaturalLanguageQuery ("strings longer than 5 characters".data) =
      { min_length := some 6 } := by
  refine ⟨?_, ?_, by decide⟩
  · intro q ds hds hdig hinf
    have hsp : (' ' : Char).isDigit = false := by decide
    have hinf2 : ("longer than ".data ++ ds ++ (' ' :: ("characters".data))) <:+:
        jsToLower q := hinf
    obtain ⟨n, hn⟩ := scanNum_complete hds hdig hsp hinf2
    obtain ⟨ds2, h1, h2, h3, h4⟩ := scanNum_sound hn
    refine ⟨ds2, h1, h2, h4, ?_⟩
    rw [parse_eq]
    show (scanNum ("longer than ".data) (" characters".data) (jsToLower q)).map
      (fun n => (n : Int) + 1) = _
    rw [show (" characters".data : JSStr) = ' ' :: ("characters".data) from rfl, hn]
    rw [h3]
    rfl
  · intro q ds hds hdig hinf
    have hsp : (' ' : Char).isDigit = false := by decide
    have hinf2 : ("shorter than ".data ++ ds ++ (' ' :: ("characters".data))) <:+:
        jsToLower q := hinf
    obtain ⟨n, hn⟩ := scanNum_complete hds hdig hsp hinf2
    obtain ⟨ds2, h1, h2, h3, h4⟩ := scanNum_sound hn
    refine ⟨ds2, h1, h2, h4, ?_⟩
    rw [parse_eq]
    show (scanNum ("shorter than ".data) (" characters".data) (jsToLower q)).map
      (fun n => (n : Int) - 1) = _
    rw [show (" characters".data : JSStr) = ' ' :: ("characters".data) from rfl, hn]
    rw [h3]
    rfl

/-- C5 witness: the two phrase rules evaluated on the concrete queries
"strings longer than 5 characters" and "strings shorter than 9 characters". -/
theorem c5_length_phrases_witness :
    (∃ ds2 : JSStr, ds2 ≠ [] ∧ (∀ d ∈ ds2, d.isDigit = true) ∧
      ("longer than ".data ++ ds2 ++ " characters".data) <:+:
        jsToLower ("strings longer than 5 characters".data) ∧
      (parseNaturalLanguageQuery ("strings longer than 5 characters".data)).min_length =
        some ((digitsToNat ds2 : Int) + 1)) ∧
    (∃ ds2 : JSStr, ds2 ≠ [] ∧ (∀ d ∈ ds2, d.isDigit = true) ∧
      ("shorter than ".data ++ ds2 ++ " characters".data) <:+:
        jsToLower ("strings shorter than 9 characters".data) ∧
      (parseNaturalLanguageQuery ("strings shorter than 9 characters".data)).max_length =
        some ((digitsToNat ds2 : Int) - 1)) :=
  ⟨c5_length_phrases.1 ("strings longer than 5 characters".data) ("5".data)
      (by decide) (by decide) (by decide),
   c5_length_phrases.2.1 ("strings shorter than 9 characters".data) ("9".data)
      (by decide) (by decide) (by decide)⟩

/-- C6: a query matching none of the six fixed phrase rules parses to the
empty criteria, and an empty parse is rejected as unparseable (HTTP 400)
rather than applied as an always-true filter; "banana" is such a query. -/
theorem c6_unparseable :
    (∀ q : JSStr,
      jsIncludes (jsToLower q) ("single word".data) = false →
      jsIncludes (jsToLower q) ("palindromic".data) = false →
      scanNum ("longer than ".data) (" characters".data) (jsToLower q) = none →
      scanLetter ("containing the letter ".data) (jsToLower q) = none →
      jsIncludes (jsToLower q) ("contain the first vowel".data) = false →
      scanNum ("shorter than ".data) (" characters".data) (jsToLower q) = none →
      parseNaturalLanguageQuery q = {}) ∧
    (∀ (q : JSStr) (data : List AnalyzedRecord),
      parseNaturalLanguageQuery q = {} →
      nlHandler q data = .error .UnparseableQuery) ∧
    parseNaturalLanguageQuery ("banana".data) = {} ∧
    (∀ data : List AnalyzedRecord,
      nlHandler ("banana".data) data = .error .UnparseableQuery) := by
  have hreject : ∀ (q : JSStr) (data : List AnalyzedRecord),
      parseNaturalLanguageQuery q = {} → nlHandler q data = .error .UnparseableQuery := by
    intro q data hempty
    simp only [nlHandler]
    by_cases htrim : jsTrim q = []
    · rw [if_pos htrim]
    · rw [if_neg htrim, hempty]
      rfl
  refine ⟨?_, hreject, by decide, fun data => hreject _ data (by decide)⟩
  intro q h1 h2 h3 h4 h5 h6
  rw [parse_eq, h1, h2, h3, h4, h5, h6]
  rfl

/-- C6 witness: the non-matching query "banana" parses to the empty
criteria and is rejected as unparseable. -/
theorem c6_unparseable_witness :
    parseNaturalLanguageQuery ("banana".data) = {} ∧
    nlHandler ("banana".data) [] = .error .UnparseableQuery :=
  ⟨c6_unparseable.1 ("banana".data) (by decide) (by decide) (by decide) (by decide)
      (by decide) (by decide),
   c6_unparseable.2.1 ("banana".data) [] (by decide)⟩

/-- C7: failed mutating operations leave the stored collection unchanged —
inserting a (valid, non-whitespace) value already present by exact match
answers `DuplicateValue` with the collection unmodified, and deleting a
value with no exact match answers `NotFound` with the collection
unmodified. -/
theorem c7_failed_mutations (v : JSStr) (data : List AnalyzedRecord) :
    (jsTrim v ≠ [] → (∃ r ∈ data, r.value = v) →
      postStrings v data = (.error .DuplicateValue, data)) ∧
    ((∀ r ∈ data, r.value ≠ v) →
      deleteString v data = (.error .NotFound, data)) := by
  constructor
  · intro htrim hdup
    have hex : checkIfStringExists v data = true := by
      unfold checkIfStringExists
      rw [List.any_eq_true]
      obtain ⟨r, hr, hrv⟩ := hdup
      exact ⟨r, hr, beq_iff_eq.mpr hrv⟩
    unfold postStrings
    rw [if_neg htrim, if_pos hex]
  · intro hnone
    unfold deleteString
    have hidx : data.findIdx? (fun item => item.value == v) = none := by
      rw [List.findIdx?_eq_none_iff]
      intro x hx
      exact beq_eq_false_iff_ne.mpr (hnone x hx)
    rw [hidx]

/-- C7 witness: a duplicate insert of "hello" and a delete of the absent
"hello" both fail and leave the concrete collections untouched. -/
theorem c7_failed_mutations_witness :
    postStrings ("hello".data) [analyzeString ("hello".data)] =
      (.error .DuplicateValue, [analyzeString ("hello".data)]) ∧
    deleteString ("hello".data) [analyzeString ("world".data)] =
      (.error .NotFound, [analyzeString ("world".data)]) :=
  ⟨(c7_failed_mutations ("hello".data) [analyzeString ("hello".data)]).1
      (by decide) (by decide),
   (c7_failed_mutations ("hello".data) [analyzeString ("world".data)]).2 (by decide)⟩

/-- C8: when the lower-cased query both matches "containing the letter c"
(for some letter c) and contains "contain the first vowel", the parsed
`contains_character` is `'a'` — the first-vowel rule runs later and
overwrites the letter rule's value instead of combining with it. -/
theorem c8_first_vowel_overwrites (q : JSStr)
    (hletter : ∃ c : Char, 'a' ≤ c ∧ c ≤ 'z' ∧
      ("containing the letter ".data ++ [c]) <:+: jsToLower q)
    (hvowel : ("contain the first vowel".data) <:+: jsToLower q) :
    (parseNaturalLanguageQuery q).contains_character = some ['a'] := by
  rw [parse_eq]
  dsimp only
  rw [if_pos ((jsIncludes_iff _ _).mpr hvowel)]

/-- C8 witness: a query matching both `contains_character` rules parses to
`'a'`. -/
theorem c8_first_vowel_overwrites_witness :
    (parseNaturalLanguageQuery
      ("containing the letter z and these contain the first vowel".data)).contains_character =
      some ['a'] :=
  c8_first_vowel_overwrites
    ("containing the letter z and these contain the first vowel".data)
    ⟨'z', by decide, by decide, by decide⟩ (by decide)

/-- C9: in `GET /strings`, a present `min_length`, `max_length` or
`word_count` parameter whose value does not `parseInt` imposes no
constraint — the request is accepted (not rejected) and returns the same
records as if the parameter were absent. -/
theorem c9_unparseable_params (q : RawQuery) (data : List AnalyzedRecord) (s : JSStr) :
    (q.min_length = some s → jsParseInt s = none →
      getStrings q data = .ok (getStringsFilter { q with min_length := none } data)) ∧
    (q.max_length = some s → jsParseInt s = none →
      getStrings q data = .ok (getStringsFilter { q with max_length := none } data)) ∧
    (q.word_count = some s → jsParseInt s = none →
      getStrings q data = .ok (getStringsFilter { q with word_count := none } data)) := by
  refine ⟨fun hq hp => ?_, fun hq hp => ?_, fun hq hp => ?_⟩ <;>
    (first
      | (have hrec : hasRecognizedKey q = true := by
          unfold hasRecognizedKey
          rw [hq]
          simp)) <;>
    (unfold getStrings
     rw [if_neg (fun hcontra => by rw [hrec] at hcontra; exact absurd hcontra.2 (by simp))]
     congr 1
     simp [getStringsFilter, hq, hp])

/-- C9 witness: concrete non-numeric parameter values are skipped. -/
theorem c9_unparseable_params_witness :
    (getStrings { min_length := some ("abc".data) } [] =
      .ok (getStringsFilter { (({ min_length := some ("abc".data) } : RawQuery)) with
        min_length := none } [])) ∧
    (getStrings { max_length := some ("abc".data) } [] =
      .ok (getStringsFilter { (({ max_length := some ("abc".data) } : RawQuery)) with
        max_length := none } [])) ∧
    (getStrings { word_count := some ("abc".data) } [] =
      .ok (getStringsFilter { (({ word_count := some ("abc".data) } : RawQuery)) with
        word_count := none } [])) :=
  ⟨(c9_unparseable_params { min_length := some ("abc".data) } [] ("abc".data)).1
      rfl (by decide),
   (c9_unparseable_params { max_length := some ("abc".data) } [] ("abc".data)).2.1
      rfl (by decide),
   (c9_unparseable_params { word_count := some ("abc".data) } [] ("abc".data)).2.2
      rfl (by decide)⟩

/-- C10: the natural-language parser can only ever produce a
`contains_character` criterion that is a single lowercase ASCII letter
('a'–'z'), because both rules that set it work on the lower-cased query
and the letter pattern accepts only `[a-z]`; meanwhile the containment
predicate applied to record values is case-sensitive (it misses `'A'` when
filtering for `'a'`). -/
theorem c10_letter_lowercase (q s : JSStr)
    (h : (parseNaturalLanguageQuery q).contains_character = some s) :
    (∃ c : Char, s = [c] ∧ 'a' ≤ c ∧ c ≤ 'z') ∧
    isCharPresent ("Apple".data) ("a".data) = false ∧
    isCharPresent ("Apple".data) ("A".data) = true := by
  refine ⟨?_, by decide, by decide⟩
  rw [parse_eq] at h
  dsimp only at h
  by_cases hv : jsIncludes (jsToLower q) ("contain the first vowel".data) = true
  · rw [if_pos hv] at h
    injection h with h
    exact ⟨'a', h.symm, by decide, by decide⟩
  · rw [if_neg hv] at h
    cases hs : scanLetter ("containing the letter ".data) (jsToLower q) with
    | none => rw [hs] at h; exact absurd h (by simp)
    | some c =>
      rw [hs] at h
      injection h with h
      obtain ⟨⟨h1, h2⟩, _⟩ := scanLetter_sound hs
      exact ⟨c, h.symm, h1, h2⟩

/-- C10 witness: the parse of "words containing the letter q" produces the
single lowercase letter `'q'`. -/
theorem c10_letter_lowercase_witness :
    (∃ c : Char, (['q'] : JSStr) = [c] ∧ 'a' ≤ c ∧ c ≤ 'z') ∧
    isCharPresent ("Apple".data) ("a".data) = false ∧
    isCharPresent ("Apple".data) ("A".data) = true :=
  c10_letter_lowercase ("words containing the letter q".data) ['q'] (by decide)
